import Mathlib

/-!
Shallow embedding of `mcp/client_alive.go` from longan55/go-mcprotocol.

The file contains two Go variants of `client3EAlive`:
* a persistent variant (mutex-protected `getConnection` with a zero-length
  write probe, and teardown of the stored connection on socket errors), and
* an explicit variant (`Connect`/`Close`, operations use `c.conn` directly).

Network effects are modelled by an oracle `NetEnv` fixing the outcome of the
probe, the dial, the payload write and the single read performed by one call,
and the client state `ClientW` tracks the stored connection handle together
with the set of handles that have been dialed and the ones that were closed.
Each operation returns its result, the new state, and the trace of network
events it performed.  Go runtime panics (negative `make` size, method call on
a nil connection) are modelled by an `Option`-valued outcome, `none` = panic.
-/

set_option autoImplicit false

namespace Mcp

/-- Value of one hex digit, as accepted by Go `encoding/hex` (`fromHexChar`). -/
def hexDigitVal (c : Char) : Option Nat :=
  if '0' ≤ c ∧ c ≤ '9' then some (c.toNat - '0'.toNat)
  else if 'a' ≤ c ∧ c ≤ 'f' then some (c.toNat - 'a'.toNat + 10)
  else if 'A' ≤ c ∧ c ≤ 'F' then some (c.toNat - 'A'.toNat + 10)
  else none

/-- Go `hex.DecodeString` on the character list: two hex digits per byte,
`none` on an odd-length input or a non-hex character. -/
def hexDecodeChars : List Char → Option (List Nat)
  | [] => some []
  | [_] => none
  | hi :: lo :: rest =>
    match hexDigitVal hi, hexDigitVal lo, hexDecodeChars rest with
    | some h, some l, some bs => some ((h * 16 + l) :: bs)
    | _, _, _ => none

/-- Go `hex.DecodeString` on a string. -/
def hexDecodeStr (s : String) : Option (List Nat) :=
  hexDecodeChars s.data

/-- Upper-case hex digit, as produced by Go `fmt.Sprintf` with verb `%X`. -/
def hexUpperDigit (n : Nat) : Char :=
  if n < 10 then Char.ofNat ('0'.toNat + n) else Char.ofNat ('A'.toNat + n - 10)

/-- Go `fmt.Sprintf("%X", bs)` on a byte slice: two upper-case hex digits per
byte.  Elements model Go `byte` and are < 256 at every use site. -/
def hexUpper : List Nat → List Char
  | [] => []
  | b :: bs => hexUpperDigit (b / 16) :: hexUpperDigit (b % 16) :: hexUpper bs

/-- `fmt.Sprintf("%X", bs)` as a string. -/
def hexUpperStr (bs : List Nat) : String :=
  String.mk (hexUpper bs)

/-- Client state: the stored connection handle (`c.conn`, `none` = Go nil),
the next fresh handle the dialer would return, and the handles that have been
closed.  A handle is "previously dialed" iff it is `< nextId`. -/
structure ClientW where
  conn : Option Nat
  nextId : Nat
  closedIds : List Nat
  deriving DecidableEq, Repr

/-- Network events one call can perform, in order. -/
inductive NetEvent where
  | probe (id : Nat)
  | dial
  | write (id : Nat) (payload : List Nat)
  | read (id : Nat) (cap : Nat)
  deriving DecidableEq, Repr

/-- Errors the client operations return. -/
inductive McpError where
  | decodeErr
  | dialErr
  | writeErr
  | readErr
  | closeErr
  | validationErr (msg : String)
  deriving DecidableEq, Repr

/-- Oracle fixing the network outcomes of a single client call:
whether the zero-length probe write succeeds, whether `net.DialTCP`
succeeds, whether the payload write succeeds, whether `conn.Close` reports
an error, and the bytes the single `conn.Read` can deliver (`none` = read
error). -/
structure NetEnv where
  probeOk : Bool
  dialOk : Bool
  writeOk : Bool
  closeOk : Bool
  readData : Option (List Nat)
  deriving DecidableEq, Repr

/-- Go `make([]byte, size)`, idealised: panics (`none`) only when the size
is negative.  The real runtime additionally panics when the size exceeds the
platform allocation limit; `goMake64` models that.  This idealisation is
used only where the statement itself keeps the size small. -/
def goMake (size : Int) : Option Nat :=
  if size < 0 then none else some size.toNat

/-- Two's-complement wrap into int64, as Go arithmetic on `int64` values. -/
def wrap64 (x : Int) : Int :=
  (x + 2 ^ 63) % 2 ^ 64 - 2 ^ 63

/-- Go `make([]byte, size)` on a platform with allocation limit `maxAlloc`:
panics (`none`) when the int64 size is negative or exceeds the limit. -/
def goMake64 (maxAlloc size : Int) : Option Nat :=
  if size < 0 ∨ maxAlloc < size then none else some size.toNat

/-- `conn.Read(buf)` with `buf` of capacity `cap` when `data` bytes are
available: the number of bytes read. -/
def readLenOf (cap : Nat) (data : List Nat) : Nat :=
  min data.length cap

/-- The slice `buf[:readLen]` the client returns after `conn.Read`. -/
def connReadBytes (cap : Nat) (data : List Nat) : List Nat :=
  data.take (readLenOf cap data)

/-- The teardown block repeated in the persistent variant after a socket
write or read failure: `c.conn.Close(); c.conn = nil`. -/
def teardown (s : ClientW) (id : Nat) : ClientW :=
  ClientW.mk none s.nextId (id :: s.closedIds)

/-- `client3EAlive.getConnection` (persistent variant): probe a stored
connection with a zero-length write, reuse it on success; otherwise close and
discard it and dial a fresh connection, storing it on success. -/
def getConnection (env : NetEnv) (s : ClientW) :
    Except McpError Nat × ClientW × List NetEvent :=
  match s.conn with
  | some id =>
    if env.probeOk then
      (Except.ok id, s, [NetEvent.probe id])
    else
      let s1 := ClientW.mk none s.nextId (id :: s.closedIds)
      if env.dialOk then
        (Except.ok s1.nextId,
         ClientW.mk (some s1.nextId) (s1.nextId + 1) s1.closedIds,
         [NetEvent.probe id, NetEvent.dial])
      else
        (Except.error McpError.dialErr, s1, [NetEvent.probe id, NetEvent.dial])
  | none =>
    if env.dialOk then
      (Except.ok s.nextId,
       ClientW.mk (some s.nextId) (s.nextId + 1) s.closedIds,
       [NetEvent.dial])
    else
      (Except.error McpError.dialErr, s, [NetEvent.dial])

/-- `client3EAlive.Close` (persistent variant). -/
def closeAlive (env : NetEnv) (s : ClientW) : Except McpError Unit × ClientW :=
  match s.conn with
  | some id =>
    ((if env.closeOk then Except.ok () else Except.error McpError.closeErr),
     ClientW.mk none s.nextId (id :: s.closedIds))
  | none => (Except.ok (), s)

/-- Error message for a HealthCheck length mismatch, from the source. -/
def lengthErrMsg (resp : List Nat) : String :=
  "plc connect test is fail: return length is [" ++ hexUpperStr resp ++ "]"

/-- Error message for a HealthCheck header mismatch, from the source. -/
def headerErrMsg (hdr : List Nat) : String :=
  "plc connect test is fail: return header is [" ++ hexUpperStr hdr ++ "]"

/-- Error message for a HealthCheck body mismatch, from the source. -/
def bodyErrMsg (body : List Nat) : String :=
  "plc connect test is fail: return body is [" ++ hexUpperStr body ++ "]"

/-- The validation chain of `HealthCheck` on the received slice
`resp = readBuff[:readLen]`: length must be 18, `resp[11:13]` must print as
`0500`, `resp[13:18]` must print as `4142434445`; checked in that order. -/
def hcValidate (resp : List Nat) : Except McpError Unit :=
  if resp.length ≠ 18 then
    Except.error (McpError.validationErr (lengthErrMsg resp))
  else if hexUpperStr ((resp.drop 11).take 2) ≠ "0500" then
    Except.error (McpError.validationErr (headerErrMsg ((resp.drop 11).take 2)))
  else if hexUpperStr ((resp.drop 13).take 5) ≠ "4142434445" then
    Except.error (McpError.validationErr (bodyErrMsg ((resp.drop 13).take 5)))
  else
    Except.ok ()

/-- `client3EAlive.HealthCheck` (persistent variant), parameterised by the
frame string `req` returned by `stn.BuildHealthCheckRequest()`. -/
def healthCheckAlive (req : String) (env : NetEnv) (s : ClientW) :
    Except McpError Unit × ClientW × List NetEvent :=
  match hexDecodeStr req with
  | none => (Except.error McpError.decodeErr, s, [])
  | some payload =>
    match getConnection env s with
    | (Except.error e, s1, tr) => (Except.error e, s1, tr)
    | (Except.ok id, s1, tr) =>
      if env.writeOk then
        match env.readData with
        | none =>
          (Except.error McpError.readErr, teardown s1 id,
           tr ++ [NetEvent.write id payload, NetEvent.read id 30])
        | some data =>
          (hcValidate (connReadBytes 30 data), s1,
           tr ++ [NetEvent.write id payload, NetEvent.read id 30])
      else
        (Except.error McpError.writeErr, teardown s1 id,
         tr ++ [NetEvent.write id payload])

/-- Response buffer size of `Read`/`BitRead`, idealised over unbounded
integers: coincides with the source's int64 computation only while
`22 + 2*numPoints` does not wrap, i.e. stays below `2^63`; `readBufSize64`
is the faithful int64 computation. -/
def readBufSize (numPoints : Int) : Int :=
  22 + 2 * numPoints

/-- Response buffer size of `Read`/`BitRead` as the source computes it:
`22 + 2*numPoints` in int64 arithmetic, wrapping negative for
`numPoints ≥ (2^63 - 22) / 2`. -/
def readBufSize64 (numPoints : Int) : Int :=
  wrap64 (22 + 2 * numPoints)

/-- `client3EAlive.Read` (persistent variant), parameterised by the frame
string `req` returned by `stn.BuildReadRequest`.  `none` models the runtime
panic of `make` on a negative buffer size. -/
def readAlive (req : String) (numPoints : Int) (env : NetEnv) (s : ClientW) :
    Option (Except McpError (List Nat) × ClientW × List NetEvent) :=
  match hexDecodeStr req with
  | none => some (Except.error McpError.decodeErr, s, [])
  | some payload =>
    match getConnection env s with
    | (Except.error e, s1, tr) => some (Except.error e, s1, tr)
    | (Except.ok id, s1, tr) =>
      if env.writeOk then
        match goMake (readBufSize numPoints) with
        | none => none
        | some cap =>
          match env.readData with
          | none =>
            some (Except.error McpError.readErr, teardown s1 id,
              tr ++ [NetEvent.write id payload, NetEvent.read id cap])
          | some data =>
            some (Except.ok (connReadBytes cap data), s1,
              tr ++ [NetEvent.write id payload, NetEvent.read id cap])
      else
        some (Except.error McpError.writeErr, teardown s1 id,
          tr ++ [NetEvent.write id payload])

/-- `client3EAlive.BitRead` (persistent variant): identical to `Read` except
for the frame builder, which is abstracted into `req`. -/
def bitReadAlive (req : String) (numPoints : Int) (env : NetEnv) (s : ClientW) :
    Option (Except McpError (List Nat) × ClientW × List NetEvent) :=
  match hexDecodeStr req with
  | none => some (Except.error McpError.decodeErr, s, [])
  | some payload =>
    match getConnection env s with
    | (Except.error e, s1, tr) => some (Except.error e, s1, tr)
    | (Except.ok id, s1, tr) =>
      if env.writeOk then
        match goMake (readBufSize numPoints) with
        | none => none
        | some cap =>
          match env.readData with
          | none =>
            some (Except.error McpError.readErr, teardown s1 id,
              tr ++ [NetEvent.write id payload, NetEvent.read id cap])
          | some data =>
            some (Except.ok (connReadBytes cap data), s1,
              tr ++ [NetEvent.write id payload, NetEvent.read id cap])
      else
        some (Except.error McpError.writeErr, teardown s1 id,
          tr ++ [NetEvent.write id payload])

/-- `client3EAlive.Write` (persistent variant): fixed 22-byte read buffer,
frame string (built from deviceName, offset, numPoints and the data payload)
abstracted into `req`. -/
def writeAlive (req : String) (env : NetEnv) (s : ClientW) :
    Except McpError (List Nat) × ClientW × List NetEvent :=
  match hexDecodeStr req with
  | none => (Except.error McpError.decodeErr, s, [])
  | some payload =>
    match getConnection env s with
    | (Except.error e, s1, tr) => (Except.error e, s1, tr)
    | (Except.ok id, s1, tr) =>
      if env.writeOk then
        match env.readData with
        | none =>
          (Except.error McpError.readErr, teardown s1 id,
           tr ++ [NetEvent.write id payload, NetEvent.read id 22])
        | some data =>
          (Except.ok (connReadBytes 22 data), s1,
           tr ++ [NetEvent.write id payload, NetEvent.read id 22])
      else
        (Except.error McpError.writeErr, teardown s1 id,
         tr ++ [NetEvent.write id payload])

/-- `client3EAlive.Connect` (explicit variant): closes any existing
connection (without clearing the field), then dials; the new connection is
stored only when the dial succeeds. -/
def connectE (env : NetEnv) (s : ClientW) :
    Except McpError Unit × ClientW × List NetEvent :=
  let s0 := match s.conn with
    | some id => ClientW.mk s.conn s.nextId (id :: s.closedIds)
    | none => s
  if env.dialOk then
    (Except.ok (), ClientW.mk (some s0.nextId) (s0.nextId + 1) s0.closedIds,
     [NetEvent.dial])
  else
    (Except.error McpError.dialErr, s0, [NetEvent.dial])

/-- `client3EAlive.Close` (explicit variant). -/
def closeE (env : NetEnv) (s : ClientW) : Except McpError Unit × ClientW :=
  match s.conn with
  | some id =>
    ((if env.closeOk then Except.ok () else Except.error McpError.closeErr),
     ClientW.mk none s.nextId (id :: s.closedIds))
  | none => (Except.ok (), s)

/-- `client3EAlive.HealthCheck` (explicit variant): uses the stored `c.conn`
directly; a nil stored connection panics (`none`); no teardown on socket
errors. -/
def healthCheckE (req : String) (env : NetEnv) (s : ClientW) :
    Option (Except McpError Unit × ClientW × List NetEvent) :=
  match hexDecodeStr req with
  | none => some (Except.error McpError.decodeErr, s, [])
  | some payload =>
    match s.conn with
    | none => none
    | some id =>
      if env.writeOk then
        match env.readData with
        | none =>
          some (Except.error McpError.readErr, s,
            [NetEvent.write id payload, NetEvent.read id 30])
        | some data =>
          some (hcValidate (connReadBytes 30 data), s,
            [NetEvent.write id payload, NetEvent.read id 30])
      else
        some (Except.error McpError.writeErr, s, [NetEvent.write id payload])

/-- `client3EAlive.Read` (explicit variant). -/
def readE (req : String) (numPoints : Int) (env : NetEnv) (s : ClientW) :
    Option (Except McpError (List Nat) × ClientW × List NetEvent) :=
  match hexDecodeStr req with
  | none => some (Except.error McpError.decodeErr, s, [])
  | some payload =>
    match s.conn with
    | none => none
    | some id =>
      if env.writeOk then
        match goMake (readBufSize numPoints) with
        | none => none
        | some cap =>
          match env.readData with
          | none =>
            some (Except.error McpError.readErr, s,
              [NetEvent.write id payload, NetEvent.read id cap])
          | some data =>
            some (Except.ok (connReadBytes cap data), s,
              [NetEvent.write id payload, NetEvent.read id cap])
      else
        some (Except.error McpError.writeErr, s, [NetEvent.write id payload])

/-- `client3EAlive.BitRead` (explicit variant): identical to `readE` except
for the frame builder, abstracted into `req`. -/
def bitReadE (req : String) (numPoints : Int) (env : NetEnv) (s : ClientW) :
    Option (Except McpError (List Nat) × ClientW × List NetEvent) :=
  match hexDecodeStr req with
  | none => some (Except.error McpError.decodeErr, s, [])
  | some payload =>
    match s.conn with
    | none => none
    | some id =>
      if env.writeOk then
        match goMake (readBufSize numPoints) with
        | none => none
        | some cap =>
          match env.readData with
          | none =>
            some (Except.error McpError.readErr, s,
              [NetEvent.write id payload, NetEvent.read id cap])
          | some data =>
            some (Except.ok (connReadBytes cap data), s,
              [NetEvent.write id payload, NetEvent.read id cap])
      else
        some (Except.error McpError.writeErr, s, [NetEvent.write id payload])

/-- `client3EAlive.Write` (explicit variant): fixed 22-byte read buffer. -/
def writeE (req : String) (env : NetEnv) (s : ClientW) :
    Option (Except McpError (List Nat) × ClientW × List NetEvent) :=
  match hexDecodeStr req with
  | none => some (Except.error McpError.decodeErr, s, [])
  | some payload =>
    match s.conn with
    | none => none
    | some id =>
      if env.writeOk then
        match env.readData with
        | none =>
          some (Except.error McpError.readErr, s,
            [NetEvent.write id payload, NetEvent.read id 22])
        | some data =>
          some (Except.ok (connReadBytes 22 data), s,
            [NetEvent.write id payload, NetEvent.read id 22])
      else
        some (Except.error McpError.writeErr, s, [NetEvent.write id payload])

/-- `client3EAlive.Read` (persistent variant) with the buffer size computed
in int64 arithmetic and the allocation limit of the platform taken as the
parameter `maxAlloc`: identical to `readAlive` except that
`make([]byte, 22+2*numPoints)` panics when the wrapped size is negative or
exceeds `maxAlloc`. -/
def readAlive64 (maxAlloc : Int) (req : String) (numPoints : Int)
    (env : NetEnv) (s : ClientW) :
    Option (Except McpError (List Nat) × ClientW × List NetEvent) :=
  match hexDecodeStr req with
  | none => some (Except.error McpError.decodeErr, s, [])
  | some payload =>
    match getConnection env s with
    | (Except.error e, s1, tr) => some (Except.error e, s1, tr)
    | (Except.ok id, s1, tr) =>
      if env.writeOk then
        match goMake64 maxAlloc (readBufSize64 numPoints) with
        | none => none
        | some cap =>
          match env.readData with
          | none =>
            some (Except.error McpError.readErr, teardown s1 id,
              tr ++ [NetEvent.write id payload, NetEvent.read id cap])
          | some data =>
            some (Except.ok (connReadBytes cap data), s1,
              tr ++ [NetEvent.write id payload, NetEvent.read id cap])
      else
        some (Except.error McpError.writeErr, teardown s1 id,
          tr ++ [NetEvent.write id payload])

/-- `client3EAlive.BitRead` (persistent variant) with int64 buffer-size
arithmetic and allocation limit, like `readAlive64`. -/
def bitReadAlive64 (maxAlloc : Int) (req : String) (numPoints : Int)
    (env : NetEnv) (s : ClientW) :
    Option (Except McpError (List Nat) × ClientW × List NetEvent) :=
  match hexDecodeStr req with
  | none => some (Except.error McpError.decodeErr, s, [])
  | some payload =>
    match getConnection env s with
    | (Except.error e, s1, tr) => some (Except.error e, s1, tr)
    | (Except.ok id, s1, tr) =>
      if env.writeOk then
        match goMake64 maxAlloc (readBufSize64 numPoints) with
        | none => none
        | some cap =>
          match env.readData with
          | none =>
            some (Except.error McpError.readErr, teardown s1 id,
              tr ++ [NetEvent.write id payload, NetEvent.read id cap])
          | some data =>
            some (Except.ok (connReadBytes cap data), s1,
              tr ++ [NetEvent.write id payload, NetEvent.read id cap])
      else
        some (Except.error McpError.writeErr, teardown s1 id,
          tr ++ [NetEvent.write id payload])

/-- The stored-connection invariant claimed for the explicit variant: the
stored handle, when present, was previously dialed and never closed. -/
def connLive (s : ClientW) : Prop :=
  ∀ id, s.conn = some id → id < s.nextId ∧ id ∉ s.closedIds

instance (s : ClientW) : Decidable (connLive s) :=
  match h : s.conn with
  | none => isTrue (fun id hid => by rw [h] at hid; cases hid)
  | some i =>
    if hi : i < s.nextId ∧ i ∉ s.closedIds then
      isTrue (fun id hid => by
        rw [h] at hid
        injection hid with h2
        exact h2 ▸ hi)
    else
      isFalse (fun hall => hi (hall i h))

/-! ### Concrete fixtures used by witnesses and counterexamples -/

/-- A valid 18-byte HealthCheck response: `resp[11:13] = 0500`,
`resp[13:18] = ABCDE`. -/
def goodResp : List Nat :=
  [208, 0, 0, 255, 255, 3, 0, 8, 0, 0, 0, 5, 0, 65, 66, 67, 68, 69]

/-- Oracle where every network operation succeeds and the read delivers
`goodResp`. -/
def envOkW : NetEnv := NetEnv.mk true true true true (some goodResp)

/-- State with a stored connection handle 0. -/
def sConnW : ClientW := ClientW.mk (some 0) 1 []

/-- A decodable one-byte frame string. -/
def reqW : String := "00"

/-- A frame string hex decoding rejects: odd length. -/
def reqBadW : String := "0"

/-- Oracle whose payload write fails. -/
def envWriteFailW : NetEnv := NetEnv.mk true true false true none

/-- Oracle delivering a short (3-byte) HealthCheck response. -/
def envShortRespW : NetEnv := NetEnv.mk true true true true (some [1, 2, 3])

/-- Well-formed client state: all closed handles were previously dialed, and
the stored handle, when present, is live and previously dialed. -/
def wfState (s : ClientW) : Prop :=
  (∀ id ∈ s.closedIds, id < s.nextId) ∧ connLive s

/-- Oracle whose dial fails. -/
def envDialFailW : NetEnv := NetEnv.mk true false true true none


/-! ### Helper lemmas -/

lemma hexUpperDigit_inj : ∀ m < 16, ∀ n < 16, hexUpperDigit m = hexUpperDigit n → m = n := by
  decide

lemma hexUpperByte_inj (a b : Nat) (ha : a < 256) (hb : b < 256)
    (h1 : hexUpperDigit (a / 16) = hexUpperDigit (b / 16))
    (h2 : hexUpperDigit (a % 16) = hexUpperDigit (b % 16)) :
    a = b := by
  have e1 : a / 16 = b / 16 := hexUpperDigit_inj _ (by omega) _ (by omega) h1
  have e2 : a % 16 = b % 16 := hexUpperDigit_inj _ (by omega) _ (by omega) h2
  omega

lemma hexUpper_inj : ∀ xs ys : List Nat, (∀ b ∈ xs, b < 256) → (∀ b ∈ ys, b < 256) →
    hexUpper xs = hexUpper ys → xs = ys := by
  intro xs
  induction xs with
  | nil =>
    intro ys _ _ h
    cases ys with
    | nil => rfl
    | cons c cs => simp [hexUpper] at h
  | cons a as ih =>
    intro ys hxs hys h
    cases ys with
    | nil => simp [hexUpper] at h
    | cons c cs =>
      simp only [hexUpper, List.cons.injEq] at h
      obtain ⟨h1, h2, h3⟩ := h
      have ha : a < 256 := hxs a (List.mem_cons_self a as)
      have hc : c < 256 := hys c (List.mem_cons_self c cs)
      have hac : a = c := hexUpperByte_inj a c ha hc h1 h2
      subst hac
      have htl := ih cs (fun b hb => hxs b (List.mem_cons_of_mem _ hb))
        (fun b hb => hys b (List.mem_cons_of_mem _ hb)) h3
      rw [htl]

lemma hexUpperStr_eq_iff (xs ys : List Nat) (hx : ∀ b ∈ xs, b < 256)
    (hy : ∀ b ∈ ys, b < 256) :
    hexUpperStr xs = hexUpperStr ys ↔ xs = ys := by
  constructor
  · intro h
    apply hexUpper_inj xs ys hx hy
    have hh := congrArg String.data h
    simpa [hexUpperStr] using hh
  · intro h; rw [h]

lemma hdr_bytes_iff (l : List Nat) (h : ∀ b ∈ l, b < 256) :
    hexUpperStr l = "0500" ↔ l = [5, 0] := by
  have e : ("0500" : String) = hexUpperStr [5, 0] := by decide
  rw [e, hexUpperStr_eq_iff l [5, 0] h (by decide)]

lemma body_bytes_iff (l : List Nat) (h : ∀ b ∈ l, b < 256) :
    hexUpperStr l = "4142434445" ↔ l = [65, 66, 67, 68, 69] := by
  have e : ("4142434445" : String) = hexUpperStr [65, 66, 67, 68, 69] := by decide
  rw [e, hexUpperStr_eq_iff l [65, 66, 67, 68, 69] h (by decide)]

/-- Full characterisation of the HealthCheck validation chain on a byte
slice: success iff all three checks pass, and on failure the error of the
first violated check, in order length, header, body. -/
lemma hcValidate_cases (resp : List Nat) (hb : ∀ b ∈ resp, b < 256) :
    (hcValidate resp = Except.ok () ↔
      resp.length = 18 ∧ (resp.drop 11).take 2 = [5, 0] ∧
        (resp.drop 13).take 5 = [65, 66, 67, 68, 69]) ∧
    (resp.length ≠ 18 →
      hcValidate resp = Except.error (McpError.validationErr (lengthErrMsg resp))) ∧
    (resp.length = 18 → (resp.drop 11).take 2 ≠ [5, 0] →
      hcValidate resp =
        Except.error (McpError.validationErr (headerErrMsg ((resp.drop 11).take 2)))) ∧
    (resp.length = 18 → (resp.drop 11).take 2 = [5, 0] →
      (resp.drop 13).take 5 ≠ [65, 66, 67, 68, 69] →
      hcValidate resp =
        Except.error (McpError.validationErr (bodyErrMsg ((resp.drop 13).take 5)))) := by
  have h2 : ∀ b ∈ (resp.drop 11).take 2, b < 256 := fun b hm =>
    hb b (List.drop_subset _ _ (List.take_subset _ _ hm))
  have h5 : ∀ b ∈ (resp.drop 13).take 5, b < 256 := fun b hm =>
    hb b (List.drop_subset _ _ (List.take_subset _ _ hm))
  have hdr := hdr_bytes_iff _ h2
  have bod := body_bytes_iff _ h5
  refine ⟨?_, ?_, ?_, ?_⟩
  · unfold hcValidate
    split_ifs with e1 e2 e3
    · simp [e1]
    · have hne : (resp.drop 11).take 2 ≠ [5, 0] := fun hh => e2 (hdr.mpr hh)
      simp [hne]
    · have hne : (resp.drop 13).take 5 ≠ [65, 66, 67, 68, 69] := fun hh => e3 (bod.mpr hh)
      simp [hne]
    · simp only [ne_eq, not_not] at e1 e2 e3
      simp [e1, hdr.mp e2, bod.mp e3]
  · intro h1; simp [hcValidate, h1]
  · intro h1 hh
    have hne : hexUpperStr ((resp.drop 11).take 2) ≠ "0500" := fun he => hh (hdr.mp he)
    simp [hcValidate, h1, hne]
  · intro h1 hh hbod
    have heq : hexUpperStr ((resp.drop 11).take 2) = "0500" := hdr.mpr hh
    have hne : hexUpperStr ((resp.drop 13).take 5) ≠ "4142434445" := fun he => hbod (bod.mp he)
    simp [hcValidate, h1, heq, hne]

lemma connReadBytes_length (cap : Nat) (data : List Nat) :
    (connReadBytes cap data).length = readLenOf cap data := by
  simp only [connReadBytes, readLenOf, List.length_take]
  omega

lemma readLenOf_le (cap : Nat) (data : List Nat) : readLenOf cap data ≤ cap :=
  Nat.min_le_right _ _

lemma goMake_of_nonneg (size : Int) (h : 0 ≤ size) : goMake size = some size.toNat := by
  simp [goMake, not_lt.mpr h]

lemma wrap64_of_fit (x : Int) (h0 : 0 ≤ x) (hlt : x < 2 ^ 63) : wrap64 x = x := by
  unfold wrap64
  rw [Int.emod_eq_of_lt (by omega) (by omega)]
  omega

lemma goMake64_of_fit (maxAlloc size : Int) (h0 : 0 ≤ size)
    (hfit : size ≤ maxAlloc) :
    goMake64 maxAlloc size = some size.toNat := by
  have hno : ¬ (size < 0 ∨ maxAlloc < size) := by omega
  simp [goMake64, hno]

/-- Run of the persistent HealthCheck on the happy network path: decode
succeeds, stored connection passes the probe, write and read succeed. -/
lemma healthCheckAlive_run (req : String) (pl : List Nat) (env : NetEnv)
    (s : ClientW) (id : Nat) (data : List Nat)
    (hd : hexDecodeStr req = some pl) (hc : s.conn = some id)
    (hp : env.probeOk = true) (hw : env.writeOk = true)
    (hr : env.readData = some data) :
    healthCheckAlive req env s =
      (hcValidate (connReadBytes 30 data), s,
       [NetEvent.probe id, NetEvent.write id pl, NetEvent.read id 30]) := by
  simp [healthCheckAlive, getConnection, hd, hc, hp, hw, hr]

/-- Run of the explicit HealthCheck on the happy network path. -/
lemma healthCheckE_run (req : String) (pl : List Nat) (env : NetEnv)
    (s : ClientW) (id : Nat) (data : List Nat)
    (hd : hexDecodeStr req = some pl) (hc : s.conn = some id)
    (hw : env.writeOk = true) (hr : env.readData = some data) :
    healthCheckE req env s =
      some (hcValidate (connReadBytes 30 data), s,
        [NetEvent.write id pl, NetEvent.read id 30]) := by
  simp [healthCheckE, hd, hc, hw, hr]

/-! ### Claims -/

/-- C1: HealthCheck succeeds iff exactly 18 bytes were read, bytes 11..13
equal `0x05 0x00` and bytes 13..18 equal ASCII `ABCDE`; on failure it
returns the ValidationError of the first violated check, in the order
length, then header, then body; the explicit variant returns the same
verdict. -/
theorem healthCheck_validation_iff (req : String) (pl : List Nat) (env : NetEnv)
    (s : ClientW) (id : Nat) (data : List Nat)
    (hd : hexDecodeStr req = some pl) (hc : s.conn = some id)
    (hp : env.probeOk = true) (hw : env.writeOk = true)
    (hr : env.readData = some data) (hb : ∀ b ∈ data, b < 256) :
    ((healthCheckAlive req env s).1 = Except.ok () ↔
      (connReadBytes 30 data).length = 18 ∧
      ((connReadBytes 30 data).drop 11).take 2 = [5, 0] ∧
      ((connReadBytes 30 data).drop 13).take 5 = [65, 66, 67, 68, 69]) ∧
    ((connReadBytes 30 data).length ≠ 18 →
      (healthCheckAlive req env s).1 =
        Except.error (McpError.validationErr (lengthErrMsg (connReadBytes 30 data)))) ∧
    ((connReadBytes 30 data).length = 18 →
      ((connReadBytes 30 data).drop 11).take 2 ≠ [5, 0] →
      (healthCheckAlive req env s).1 =
        Except.error (McpError.validationErr
          (headerErrMsg (((connReadBytes 30 data).drop 11).take 2)))) ∧
    ((connReadBytes 30 data).length = 18 →
      ((connReadBytes 30 data).drop 11).take 2 = [5, 0] →
      ((connReadBytes 30 data).drop 13).take 5 ≠ [65, 66, 67, 68, 69] →
      (healthCheckAlive req env s).1 =
        Except.error (McpError.validationErr
          (bodyErrMsg (((connReadBytes 30 data).drop 13).take 5)))) ∧
    (healthCheckE req env s).map Prod.fst = some (healthCheckAlive req env s).1 := by
  have hresp : ∀ b ∈ connReadBytes 30 data, b < 256 := fun b hm =>
    hb b (List.take_subset _ _ hm)
  have hrun := healthCheckAlive_run req pl env s id data hd hc hp hw hr
  have hrunE := healthCheckE_run req pl env s id data hd hc hw hr
  have hcases := hcValidate_cases (connReadBytes 30 data) hresp
  rw [hrun, hrunE]
  exact ⟨hcases.1, hcases.2.1, hcases.2.2.1, hcases.2.2.2, rfl⟩

theorem healthCheck_validation_iff_w :
    (healthCheckAlive reqW envOkW sConnW).1 = Except.ok () :=
  ((healthCheck_validation_iff reqW [0] envOkW sConnW 0 goodResp (by decide) rfl
      rfl rfl rfl (by decide)).1).mpr (by decide)

/-- C2: getConnection reuses a stored connection whose zero-length probe
succeeds, without redialing and without changing the state; on probe failure
it closes and discards the stored connection and dials: on dial failure it
returns an error with the stored connection absent, on dial success it
stores and returns the fresh connection.  (With no stored connection it
dials directly.) -/
theorem getConnection_spec (env : NetEnv) (s : ClientW) (id : Nat) :
    (s.conn = some id → env.probeOk = true →
      getConnection env s = (Except.ok id, s, [NetEvent.probe id])) ∧
    (s.conn = some id → env.probeOk = false → env.dialOk = true →
      getConnection env s =
        (Except.ok s.nextId, ClientW.mk (some s.nextId) (s.nextId + 1) (id :: s.closedIds),
         [NetEvent.probe id, NetEvent.dial])) ∧
    (s.conn = some id → env.probeOk = false → env.dialOk = false →
      getConnection env s =
        (Except.error McpError.dialErr, ClientW.mk none s.nextId (id :: s.closedIds),
         [NetEvent.probe id, NetEvent.dial])) ∧
    (s.conn = none → env.dialOk = true →
      getConnection env s =
        (Except.ok s.nextId, ClientW.mk (some s.nextId) (s.nextId + 1) s.closedIds,
         [NetEvent.dial])) ∧
    (s.conn = none → env.dialOk = false →
      getConnection env s = (Except.error McpError.dialErr, s, [NetEvent.dial])) := by
  refine ⟨?_, ?_, ?_, ?_, ?_⟩
  · intro hc hp; simp [getConnection, hc, hp]
  · intro hc hp hdl; simp [getConnection, hc, hp, hdl]
  · intro hc hp hdl; simp [getConnection, hc, hp, hdl]
  · intro hc hdl; simp [getConnection, hc, hdl]
  · intro hc hdl; simp [getConnection, hc, hdl]

theorem getConnection_spec_w :
    getConnection envOkW sConnW = (Except.ok 0, sConnW, [NetEvent.probe 0]) :=
  (getConnection_spec envOkW sConnW 0).1 rfl rfl

/-- C10: when the network path succeeds (probe, write and read all succeed),
the persistent HealthCheck returns the validation verdict with the stored
state completely unchanged — a validation failure neither closes nor
discards the connection — and the next acquisition reuses the same handle. -/
theorem healthCheck_validation_keeps_conn (req : String) (pl : List Nat)
    (env : NetEnv) (s : ClientW) (id : Nat) (data : List Nat)
    (hd : hexDecodeStr req = some pl) (hc : s.conn = some id)
    (hp : env.probeOk = true) (hw : env.writeOk = true)
    (hr : env.readData = some data) :
    (healthCheckAlive req env s).2.1 = s ∧
    (healthCheckAlive req env s).1 = hcValidate (connReadBytes 30 data) ∧
    (getConnection env (healthCheckAlive req env s).2.1).1 = Except.ok id := by
  have hrun := healthCheckAlive_run req pl env s id data hd hc hp hw hr
  rw [hrun]
  exact ⟨rfl, rfl, by simp [getConnection, hc, hp]⟩

theorem healthCheck_validation_keeps_conn_w :
    (healthCheckAlive reqW (NetEnv.mk true true true true (some [1, 2, 3]))
      sConnW).2.1 = sConnW :=
  (healthCheck_validation_keeps_conn reqW [0]
    (NetEnv.mk true true true true (some [1, 2, 3])) sConnW 0 [1, 2, 3]
    (by decide) rfl rfl rfl rfl).1

/-- C6: in both variants and for all four operations, a hex-decode failure
on the frame string returns the decode error with the client state unchanged
and an empty network-event trace: no connection acquisition, no socket write
and no socket read happens. -/
theorem decode_failure_no_io (req : String) (n : Int) (env : NetEnv) (s : ClientW)
    (hd : hexDecodeStr req = none) :
    healthCheckAlive req env s = (Except.error McpError.decodeErr, s, []) ∧
    readAlive req n env s = some (Except.error McpError.decodeErr, s, []) ∧
    bitReadAlive req n env s = some (Except.error McpError.decodeErr, s, []) ∧
    writeAlive req env s = (Except.error McpError.decodeErr, s, []) ∧
    healthCheckE req env s = some (Except.error McpError.decodeErr, s, []) ∧
    readE req n env s = some (Except.error McpError.decodeErr, s, []) ∧
    bitReadE req n env s = some (Except.error McpError.decodeErr, s, []) ∧
    writeE req env s = some (Except.error McpError.decodeErr, s, []) := by
  refine ⟨?_, ?_, ?_, ?_, ?_, ?_, ?_, ?_⟩
  · simp [healthCheckAlive, hd]
  · simp [readAlive, hd]
  · simp [bitReadAlive, hd]
  · simp [writeAlive, hd]
  · simp [healthCheckE, hd]
  · simp [readE, hd]
  · simp [bitReadE, hd]
  · simp [writeE, hd]

theorem decode_failure_no_io_w :
    healthCheckAlive reqBadW envOkW sConnW = (Except.error McpError.decodeErr, sConnW, []) :=
  (decode_failure_no_io reqBadW 0 envOkW sConnW (by decide)).1

/-- C3: in the persistent variant, after a socket write failure or a socket
read failure in HealthCheck, Read, BitRead or Write, the stored connection
is closed and set to absent, the operation returns the original I/O error,
its trace shows a single write (and at most one read) with no retry, and the
next acquisition dials afresh. -/
theorem socket_failure_teardown (req : String) (pl : List Nat) (n : Int)
    (env : NetEnv) (s s1 : ClientW) (id : Nat) (tr1 : List NetEvent)
    (hd : hexDecodeStr req = some pl)
    (hg : getConnection env s = (Except.ok id, s1, tr1))
    (hn : 0 ≤ n) :
    (env.writeOk = false →
      healthCheckAlive req env s =
        (Except.error McpError.writeErr, teardown s1 id, tr1 ++ [NetEvent.write id pl]) ∧
      readAlive req n env s =
        some (Except.error McpError.writeErr, teardown s1 id, tr1 ++ [NetEvent.write id pl]) ∧
      bitReadAlive req n env s =
        some (Except.error McpError.writeErr, teardown s1 id, tr1 ++ [NetEvent.write id pl]) ∧
      writeAlive req env s =
        (Except.error McpError.writeErr, teardown s1 id, tr1 ++ [NetEvent.write id pl])) ∧
    (env.writeOk = true → env.readData = none →
      healthCheckAlive req env s =
        (Except.error McpError.readErr, teardown s1 id,
         tr1 ++ [NetEvent.write id pl, NetEvent.read id 30]) ∧
      readAlive req n env s =
        some (Except.error McpError.readErr, teardown s1 id,
          tr1 ++ [NetEvent.write id pl, NetEvent.read id (readBufSize n).toNat]) ∧
      bitReadAlive req n env s =
        some (Except.error McpError.readErr, teardown s1 id,
          tr1 ++ [NetEvent.write id pl, NetEvent.read id (readBufSize n).toNat]) ∧
      writeAlive req env s =
        (Except.error McpError.readErr, teardown s1 id,
         tr1 ++ [NetEvent.write id pl, NetEvent.read id 22])) ∧
    (teardown s1 id).conn = none ∧
    (∀ env2 : NetEnv, (getConnection env2 (teardown s1 id)).2.2 = [NetEvent.dial]) := by
  have hsize : (0 : Int) ≤ readBufSize n := by simp only [readBufSize]; omega
  have gm := goMake_of_nonneg _ hsize
  refine ⟨?_, ?_, rfl, ?_⟩
  · intro hw
    refine ⟨?_, ?_, ?_, ?_⟩
    · simp [healthCheckAlive, hd, hg, hw]
    · simp [readAlive, hd, hg, hw]
    · simp [bitReadAlive, hd, hg, hw]
    · simp [writeAlive, hd, hg, hw]
  · intro hw hrd
    refine ⟨?_, ?_, ?_, ?_⟩
    · simp [healthCheckAlive, hd, hg, hw, hrd]
    · simp [readAlive, hd, hg, hw, hrd, gm]
    · simp [bitReadAlive, hd, hg, hw, hrd, gm]
    · simp [writeAlive, hd, hg, hw, hrd]
  · intro env2
    by_cases hdl : env2.dialOk <;> simp [getConnection, teardown, hdl]

theorem socket_failure_teardown_w :
    healthCheckAlive reqW envWriteFailW sConnW =
      (Except.error McpError.writeErr, teardown sConnW 0,
       [NetEvent.probe 0] ++ [NetEvent.write 0 [0]]) :=
  ((socket_failure_teardown reqW [0] 0 envWriteFailW sConnW sConnW 0
      [NetEvent.probe 0] (by decide) rfl (by decide)).1 rfl).1

/-- C4 is false as stated: at numPoints = 2^62 (a value of int64 with
numPoints ≥ 0) the int64 size 22 + 2*numPoints wraps to the negative value
22 - 2^63, so `make` panics and Read/BitRead allocate nothing instead of a
22 + 2*numPoints byte buffer — shown here with the allocation limit 2^48. -/
theorem read_buffer_cex :
    (0 : Int) ≤ 4611686018427387904 ∧
    readBufSize64 4611686018427387904 = 22 - 9223372036854775808 ∧
    readAlive64 281474976710656 reqW 4611686018427387904 envOkW sConnW = none ∧
    bitReadAlive64 281474976710656 reqW 4611686018427387904 envOkW sConnW = none :=
  ⟨by decide, by decide, rfl, rfl⟩

/-- C4 amended: for every numPoints ≥ 0 whose int64 buffer size
22 + 2*numPoints neither wraps (stays below 2^63) nor exceeds the platform
allocation limit, Read and BitRead allocate a response buffer of exactly
22 + 2*numPoints bytes, read at most that capacity in one socket read, and
return exactly the prefix of bytes actually read: the returned length is
the reported read length, not the requested capacity. -/
theorem read_buffer_spec64 (maxAlloc : Int) (req : String) (pl : List Nat)
    (n : Int) (env : NetEnv) (s s1 : ClientW) (id : Nat) (tr1 : List NetEvent)
    (data : List Nat)
    (hd : hexDecodeStr req = some pl)
    (hg : getConnection env s = (Except.ok id, s1, tr1))
    (hw : env.writeOk = true) (hr : env.readData = some data)
    (hn : 0 ≤ n) (hnw : 22 + 2 * n < 2 ^ 63) (hfit : 22 + 2 * n ≤ maxAlloc) :
    readAlive64 maxAlloc req n env s =
      some (Except.ok (connReadBytes (readBufSize64 n).toNat data), s1,
        tr1 ++ [NetEvent.write id pl, NetEvent.read id (readBufSize64 n).toNat]) ∧
    bitReadAlive64 maxAlloc req n env s =
      some (Except.ok (connReadBytes (readBufSize64 n).toNat data), s1,
        tr1 ++ [NetEvent.write id pl, NetEvent.read id (readBufSize64 n).toNat]) ∧
    ((readBufSize64 n).toNat : Int) = 22 + 2 * n ∧
    (connReadBytes (readBufSize64 n).toNat data).length =
      readLenOf (readBufSize64 n).toNat data ∧
    readLenOf (readBufSize64 n).toNat data ≤ (readBufSize64 n).toNat := by
  have hsz : readBufSize64 n = 22 + 2 * n := by
    unfold readBufSize64
    exact wrap64_of_fit _ (by omega) hnw
  have h0 : (0 : Int) ≤ readBufSize64 n := by omega
  have gm : goMake64 maxAlloc (readBufSize64 n) = some (readBufSize64 n).toNat :=
    goMake64_of_fit _ _ h0 (by omega)
  refine ⟨?_, ?_, ?_, connReadBytes_length _ _, readLenOf_le _ _⟩
  · simp [readAlive64, hd, hg, hw, hr, gm]
  · simp [bitReadAlive64, hd, hg, hw, hr, gm]
  · rw [Int.toNat_of_nonneg h0, hsz]

theorem read_buffer_spec64_w :
    readAlive64 281474976710656 reqW 3 envOkW sConnW =
      some (Except.ok (connReadBytes (readBufSize64 3).toNat goodResp), sConnW,
        [NetEvent.probe 0] ++ [NetEvent.write 0 [0], NetEvent.read 0 (readBufSize64 3).toNat]) :=
  (read_buffer_spec64 281474976710656 reqW [0] 3 envOkW sConnW sConnW 0
    [NetEvent.probe 0] goodResp (by decide) rfl rfl rfl (by decide) (by decide)
    (by decide)).1

/-- C5: in both variants, a successful Write returns at most 22 bytes,
whatever frame string (and hence whatever data payload) was supplied: the
read buffer is fixed at 22 bytes. -/
theorem write_response_le_22 (req : String) (env : NetEnv) (s : ClientW) :
    (∀ bs s2 tr, writeAlive req env s = (Except.ok bs, s2, tr) → bs.length ≤ 22) ∧
    (∀ bs s2 tr, writeE req env s = some (Except.ok bs, s2, tr) → bs.length ≤ 22) := by
  constructor
  · intro bs s2 tr h
    unfold writeAlive at h
    split at h
    · simp at h
    · split at h
      · simp at h
      · split at h
        · split at h
          · simp at h
          · simp only [Prod.mk.injEq, Except.ok.injEq] at h
            rw [← h.1, connReadBytes_length]
            exact readLenOf_le 22 _
        · simp at h
  · intro bs s2 tr h
    unfold writeE at h
    split at h
    · simp at h
    · split at h
      · simp at h
      · split at h
        · split at h
          · simp at h
          · simp only [Option.some.injEq, Prod.mk.injEq, Except.ok.injEq] at h
            rw [← h.1, connReadBytes_length]
            exact readLenOf_le 22 _
        · simp at h

theorem write_response_le_22_w :
    goodResp.length ≤ 22 :=
  (write_response_le_22 reqW envOkW sConnW).1 goodResp sConnW
    ([NetEvent.probe 0] ++ [NetEvent.write 0 [0], NetEvent.read 0 22]) rfl

/-- C9 is false as stated: numPoints = 2^62 satisfies numPoints ≥ 0, yet
the int64 buffer size 22 + 2*numPoints wraps negative and `make` panics, so
Read and BitRead are not well-defined there (allocation limit 2^48 shown;
the wrap panic is independent of the limit). -/
theorem read_no_panic_cex :
    (0 : Int) ≤ 4611686018427387904 ∧
    (readAlive64 281474976710656 reqW 4611686018427387904 envOkW sConnW).isSome = false ∧
    (bitReadAlive64 281474976710656 reqW 4611686018427387904 envOkW sConnW).isSome = false :=
  ⟨by decide, rfl, rfl⟩

/-- C9 amended: Read and BitRead are free of the allocation panic for every
numPoints ≥ 0 whose int64 buffer size 22 + 2*numPoints does not wrap and
fits the platform allocation limit; the degenerate numPoints = 0 case is
not specially rejected and allocates a 22-byte buffer.  numPoints ≥ 0 is
not necessary for a non-negative size: numPoints = -1 also allocates (a
20-byte buffer) without panic. -/
theorem read_nonneg_no_panic64 (maxAlloc : Int) (req : String) (n : Int)
    (env : NetEnv) (s : ClientW)
    (hn : 0 ≤ n) (hnw : 22 + 2 * n < 2 ^ 63) (hfit : 22 + 2 * n ≤ maxAlloc) :
    (readAlive64 maxAlloc req n env s).isSome = true ∧
    (bitReadAlive64 maxAlloc req n env s).isSome = true ∧
    goMake64 maxAlloc (readBufSize64 0) = some 22 ∧
    0 ≤ readBufSize64 n ∧
    goMake64 maxAlloc (readBufSize64 (-1)) = some 20 := by
  have hsz : readBufSize64 n = 22 + 2 * n := by
    unfold readBufSize64
    exact wrap64_of_fit _ (by omega) hnw
  have h0 : (0 : Int) ≤ readBufSize64 n := by omega
  have gm : goMake64 maxAlloc (readBufSize64 n) = some (readBufSize64 n).toNat :=
    goMake64_of_fit _ _ h0 (by omega)
  have hsz0 : readBufSize64 0 = 22 := by
    unfold readBufSize64
    rw [wrap64_of_fit _ (by omega) (by omega)]
    omega
  have hszm1 : readBufSize64 (-1) = 20 := by
    unfold readBufSize64
    rw [wrap64_of_fit _ (by omega) (by omega)]
    omega
  refine ⟨?_, ?_, ?_, h0, ?_⟩
  · unfold readAlive64
    split
    · rfl
    · rcases hgc : getConnection env s with ⟨r, s1, tr1⟩
      cases r with
      | error e => simp [hgc]
      | ok id =>
        by_cases hw : env.writeOk
        · cases hrd : env.readData <;> simp [hgc, hw, gm, hrd]
        · simp [hgc, hw]
  · unfold bitReadAlive64
    split
    · rfl
    · rcases hgc : getConnection env s with ⟨r, s1, tr1⟩
      cases r with
      | error e => simp [hgc]
      | ok id =>
        by_cases hw : env.writeOk
        · cases hrd : env.readData <;> simp [hgc, hw, gm, hrd]
        · simp [hgc, hw]
  · rw [hsz0, goMake64_of_fit _ _ (by omega) (by omega)]
    rfl
  · rw [hszm1, goMake64_of_fit _ _ (by omega) (by omega)]
    rfl

theorem read_nonneg_no_panic64_w :
    (readAlive64 281474976710656 reqW 0 envOkW sConnW).isSome = true :=
  (read_nonneg_no_panic64 281474976710656 reqW 0 envOkW sConnW (by decide)
    (by decide) (by decide)).1

/-- C8: every ValidationError HealthCheck returns embeds the actual bytes
received, hex-formatted, in its message: the length error embeds the full
received slice, the header and body errors embed the failing field. -/
theorem validation_error_hex_payload (req : String) (pl : List Nat)
    (env : NetEnv) (s : ClientW) (id : Nat) (data : List Nat)
    (hd : hexDecodeStr req = some pl) (hc : s.conn = some id)
    (hp : env.probeOk = true) (hw : env.writeOk = true)
    (hr : env.readData = some data) (hb : ∀ b ∈ data, b < 256) :
    ((connReadBytes 30 data).length ≠ 18 →
      ∃ p q, (healthCheckAlive req env s).1 =
        Except.error (McpError.validationErr
          (p ++ hexUpperStr (connReadBytes 30 data) ++ q))) ∧
    ((connReadBytes 30 data).length = 18 →
      ((connReadBytes 30 data).drop 11).take 2 ≠ [5, 0] →
      ∃ p q, (healthCheckAlive req env s).1 =
        Except.error (McpError.validationErr
          (p ++ hexUpperStr (((connReadBytes 30 data).drop 11).take 2) ++ q))) ∧
    ((connReadBytes 30 data).length = 18 →
      ((connReadBytes 30 data).drop 11).take 2 = [5, 0] →
      ((connReadBytes 30 data).drop 13).take 5 ≠ [65, 66, 67, 68, 69] →
      ∃ p q, (healthCheckAlive req env s).1 =
        Except.error (McpError.validationErr
          (p ++ hexUpperStr (((connReadBytes 30 data).drop 13).take 5) ++ q))) := by
  have hresp : ∀ b ∈ connReadBytes 30 data, b < 256 := fun b hm =>
    hb b (List.take_subset _ _ hm)
  have hrun := healthCheckAlive_run req pl env s id data hd hc hp hw hr
  have hcases := hcValidate_cases (connReadBytes 30 data) hresp
  rw [hrun]
  refine ⟨?_, ?_, ?_⟩
  · intro h1
    exact ⟨"plc connect test is fail: return length is [", "]", hcases.2.1 h1⟩
  · intro h1 h2
    exact ⟨"plc connect test is fail: return header is [", "]", hcases.2.2.1 h1 h2⟩
  · intro h1 h2 h3
    exact ⟨"plc connect test is fail: return body is [", "]", hcases.2.2.2 h1 h2 h3⟩

theorem validation_error_hex_payload_w :
    ∃ p q, (healthCheckAlive reqW envShortRespW sConnW).1 =
      Except.error (McpError.validationErr
        (p ++ hexUpperStr (connReadBytes 30 [1, 2, 3]) ++ q)) :=
  (validation_error_hex_payload reqW [0] envShortRespW sConnW 0 [1, 2, 3]
    (by decide) rfl rfl rfl rfl (by decide)).1 (by decide)

/-- C7 counterexample: from a state holding a live stored connection, a
Connect (explicit variant) whose dial fails leaves the old connection both
closed and still stored, so the claimed invariant fails after that call. -/
theorem connect_invariant_cex :
    connLive sConnW ∧
    (connectE envDialFailW sConnW).2.1.conn = some 0 ∧
    0 ∈ (connectE envDialFailW sConnW).2.1.closedIds ∧
    ¬ connLive (connectE envDialFailW sConnW).2.1 := by decide

/-- C7 amended: Connect closes any existing connection and, on dial success,
stores the fresh one, preserving the stored-connection invariant; Close also
preserves it; but after a Connect whose dial fails the old connection,
although closed, remains stored. -/
theorem connect_close_spec (env : NetEnv) (s : ClientW) (hwf : wfState s) :
    (∀ id, s.conn = some id → id ∈ (connectE env s).2.1.closedIds) ∧
    (env.dialOk = true →
      (connectE env s).1 = Except.ok () ∧
      (connectE env s).2.1.conn = some s.nextId ∧
      wfState (connectE env s).2.1) ∧
    wfState (closeE env s).2 ∧
    (env.dialOk = false →
      (connectE env s).1 = Except.error McpError.dialErr ∧
      (connectE env s).2.1.conn = s.conn) := by
  obtain ⟨hclosed, hlive⟩ := hwf
  refine ⟨?_, ?_, ?_, ?_⟩
  · intro id hc
    by_cases hdl : env.dialOk <;> simp [connectE, hc, hdl]
  · intro hdl
    cases hc : s.conn with
    | none =>
      have hce : connectE env s =
          (Except.ok (), ClientW.mk (some s.nextId) (s.nextId + 1) s.closedIds,
           [NetEvent.dial]) := by
        simp [connectE, hc, hdl]
      rw [hce]
      refine ⟨rfl, rfl, ?_, ?_⟩
      · intro id hid
        exact Nat.lt_succ_of_lt (hclosed id hid)
      · intro id hid
        injection hid with h2
        subst h2
        exact ⟨Nat.lt_succ_self _, fun hmem => absurd (hclosed _ hmem) (Nat.lt_irrefl _)⟩
    | some a =>
      have ha : a < s.nextId := (hlive a hc).1
      have hce : connectE env s =
          (Except.ok (), ClientW.mk (some s.nextId) (s.nextId + 1) (a :: s.closedIds),
           [NetEvent.dial]) := by
        simp [connectE, hc, hdl]
      rw [hce]
      refine ⟨rfl, rfl, ?_, ?_⟩
      · intro id hid
        rcases List.mem_cons.mp hid with h | h
        · exact lt_of_eq_of_lt h (Nat.lt_succ_of_lt ha)
        · exact Nat.lt_succ_of_lt (hclosed id h)
      · intro id hid
        injection hid with h2
        subst h2
        refine ⟨Nat.lt_succ_self _, fun hmem => ?_⟩
        rcases List.mem_cons.mp hmem with h | h
        · omega
        · exact absurd (hclosed _ h) (Nat.lt_irrefl _)
  · cases hc : s.conn with
    | none =>
      have hcl : (closeE env s).2 = s := by simp [closeE, hc]
      rw [hcl]
      exact ⟨hclosed, hlive⟩
    | some a =>
      have ha : a < s.nextId := (hlive a hc).1
      have hcl : (closeE env s).2 = ClientW.mk none s.nextId (a :: s.closedIds) := by
        simp [closeE, hc]
      rw [hcl]
      refine ⟨?_, ?_⟩
      · intro id hid
        rcases List.mem_cons.mp hid with h | h
        · exact lt_of_eq_of_lt h ha
        · exact hclosed id h
      · intro id hid
        cases hid
  · intro hdl
    cases hc : s.conn with
    | none => exact ⟨by simp [connectE, hc, hdl], by simp [connectE, hc, hdl]⟩
    | some a => exact ⟨by simp [connectE, hc, hdl], by simp [connectE, hc, hdl]⟩

theorem connect_close_spec_w :
    wfState (closeE envOkW sConnW).2 :=
  (connect_close_spec envOkW sConnW (by constructor <;> decide)).2.2.1

end Mcp
